import Mathlib

/-!
Verification development for the schema-enforcer repository.

This file gives a shallow embedding, in Lean, of the core matching,
loading and validation logic of schema-enforcer, translated from the
Python sources:

* `schema_enforcer/validation.py`   (ValidationResult, pass/fail)
* `schema_enforcer/instances/file.py` (InstanceFile matching: static
  mapping, decorator comment, property automap, cached
  top_level_properties)
* `schema_enforcer/schemas/jsonschema.py` (structural validation with a
  Draft-7 style validator, strict-mode schema rewrite)
* `schema_enforcer/schemas/manager.py` (SchemaManager load, self-test
  harness for invalid fixtures, expected-results generation)
* `schema_enforcer/schemas/validator.py` (validator plugins, JMESPath
  predicate validator, duplicate-id handling)
* `schema_enforcer/cli.py` (result aggregation and exit status)

External collaborators (the YAML/JSON parser, the jsonschema library,
the jmespath query engine, the filesystem) are modelled at their
interfaces: parsed file content, query results and meta-schema error
lists appear as explicit inputs, and the Draft-7 structural validator is
embedded as an executable fragment covering the keywords the repository
relies on (type, properties, required, additionalProperties as a
boolean, items).  Schema-valued additionalProperties and
patternProperties lie outside the fragment.  File contents are modelled
as the list of their characters (Python str).
-/

set_option autoImplicit false

namespace SchemaEnforcer

/-! ## validation.py : ValidationResult -/

/-- RESULT_PASS constant from validation.py. -/
def RESULT_PASS : String := "PASS"

/-- RESULT_FAIL constant from validation.py. -/
def RESULT_FAIL : String := "FAIL"

/-- ValidationResult (validation.py).  Fields kept from the pydantic
model; `source` is omitted (never read by the code under study).
`absolute_path` holds keys and indices rendered as strings, matching the
coerce_numbers_to_str configuration. -/
structure ValidationResult where
  result : String
  schema_id : String
  instance_name : Option String := none
  instance_location : Option String := none
  instance_type : Option String := none
  instance_hostname : Option String := none
  strict : Bool := false
  absolute_path : List String := []
  message : Option String := none
deriving DecidableEq

/-- The `result_must_be_pass_or_fail` pydantic field validator: the
`result` value is upper-cased and must be PASS or FAIL, otherwise the
construction fails. -/
def resultMustBePassOrFail (var : String) : Except String String :=
  if var.toUpper = RESULT_PASS ∨ var.toUpper = RESULT_FAIL then .ok var.toUpper
  else .error "must be either PASS or FAIL"

/-- ValidationResult.passed (validation.py line 41): true iff the result
field equals RESULT_PASS. -/
def ValidationResult.passed (r : ValidationResult) : Bool :=
  r.result == RESULT_PASS

/-- BaseValidation.get_results (validator.py): when no result was
recorded, a bare PASS result is synthesized before returning. -/
def getResults (sid : String) (rs : List ValidationResult) : List ValidationResult :=
  if rs.isEmpty then [{ result := RESULT_PASS, schema_id := sid }] else rs

/-! ## instances/file.py : the decorator comment

`InstanceFile._add_matches_by_decorator` runs
`re.match(r"^#.*jsonschema:\s*(.*)$", content, re.MULTILINE)` guarded by
`if "jsonschema" in content`.  `re.match` anchors the pattern at the
very start of the string, so a match is possible only when the first
line starts with `#` and contains `jsonschema:` (the dot does not match
newlines, so `#.*jsonschema:` lives entirely on the first line, the
greedy `.*` placing the tag at its last occurrence there).  The
following `\s*` however DOES match newlines: it greedily swallows the
maximal whitespace run after the tag — possibly crossing line breaks —
and the captured group `(.*)$` is then the rest of whatever line that
run lands on (`$` matches at any end of line under re.MULTILINE).  The
payload is then split on commas and each piece stripped.  File content
is a `List Char` (Python str). -/

/-- The SCHEMA_TAG constant ("jsonschema"), as characters. -/
def tagChars : List Char := "jsonschema".toList

/-- The characters of "jsonschema:", the tag as it appears in the
regular expression. -/
def tagColon : List Char := tagChars ++ [':']

/-- Suffix of `l` after the last occurrence of the pattern `pat`, or
none when `pat` does not occur.  Models the greedy `.*` before the tag
in the regular expression, which makes the match use the last
occurrence on the line. -/
def lastTagSplit (pat : List Char) : List Char → Option (List Char)
  | [] => none
  | c :: rest =>
    match lastTagSplit pat rest with
    | some suffix => some suffix
    | none => if pat.isPrefixOf (c :: rest) then some ((c :: rest).drop pat.length) else none

/-- Python str.split(sep) for a one-character separator: returns at
least one piece, empty pieces preserved. -/
def pySplit (sep : Char) : List Char → List (List Char)
  | [] => [[]]
  | c :: rest =>
    match pySplit sep rest with
    | [] => [[c]]
    | h :: t => if c = sep then [] :: h :: t else (c :: h) :: t

/-- The ASCII whitespace class of Python `\s` (and of str.strip):
space, tab, newline, carriage return, vertical tab and form feed. -/
def pyWhitespace (c : Char) : Bool :=
  c = ' ' || c = '\t' || c = '\n' || c = '\r' || c = '\x0b' || c = '\x0c'

/-- Python str.strip(): remove leading and trailing whitespace. -/
def pyStrip (s : List Char) : List Char :=
  ((s.dropWhile pyWhitespace).reverse.dropWhile pyWhitespace).reverse

/-- Model of `re.match(r"^#.*jsonschema:\s*(.*)$", content,
re.MULTILINE)`: `re.match` anchors at position 0, so `^#` requires the
very first character to be `#` and `#.*jsonschema:` must lie on the
first line (the dot does not match newlines), the greedy `.*` selecting
the last tag occurrence there.  From that point the greedy `\s*`
consumes the maximal whitespace run of the WHOLE remaining content —
newlines included — and capture group 1 is the rest of the line on
which that run ends.  In particular, when only whitespace follows the
last tag on the first line, the payload comes from a later line. -/
def reMatchDecorator (content : List Char) : Option (List Char) :=
  let firstLine := content.takeWhile (· ≠ '\n')
  if firstLine.head? = some '#' then
    match lastTagSplit tagColon firstLine with
    | some suffix =>
      some ((((suffix ++ content.drop firstLine.length).dropWhile
        pyWhitespace)).takeWhile (fun c => c ≠ '\n'))
    | none => none
  else none

/-- The set of schema ids denoted by a matched decorator payload:
`{x.strip() for x in payload.split(",")}`. -/
def decoratorIdsOfPayload (payload : List Char) : Finset String :=
  ((pySplit ',' payload).map (fun cs => String.mk (pyStrip cs))).toFinset

/-- InstanceFile._add_matches_by_decorator (file.py lines 121-144):
updates the given `self.matches` set with the ids named by a decorator
comment, guarded by the `SCHEMA_TAG in content` substring test. -/
def addMatchesByDecorator (content : List Char) (matchesSet : Finset String) : Finset String :=
  if tagChars <:+: content then
    match reMatchDecorator content with
    | some payload => matchesSet ∪ decoratorIdsOfPayload payload
    | none => matchesSet
  else matchesSet

/-! ## instances/file.py : static mapping, top_level_properties, automap -/

/-- Static filename-to-schema-ids lookup performed by
InstanceFileManager.__init__ (file.py lines 37-43): when the filename is
a key of config.schema_mapping the mapped ids seed the matches set,
otherwise the seed is empty. -/
def staticMatches (schemaMapping : List (String × List String)) (filename : String) :
    Finset String :=
  match schemaMapping.lookup filename with
  | some ids => ids.toFinset
  | none => ∅

/-- InstanceFile.__init__ (file.py lines 68-89): the matches set starts
from the static-mapping seed and `_add_matches_by_decorator` is then
always run on the raw file content. -/
def instanceFileInitMatches (schemaMapping : List (String × List String))
    (filename : String) (content : List Char) : Finset String :=
  addMatchesByDecorator content (staticMatches schemaMapping filename)

/-- Structured content of a data file as returned by `load_file`
(the external YAML/JSON parser), restricted to the shapes
`top_level_properties` distinguishes: None, a string, a mapping (seen
through its key list), or a list whose members are strings or mappings
(seen through their key lists). -/
inductive PyContent where
  | noneV
  | strV (s : String)
  | mapV (keys : List String)
  | listV (xs : List (String ⊕ List String))
deriving DecidableEq

/-- Python truthiness of a PyContent value (`if not content`): None,
the empty string, the empty mapping and the empty list are falsy. -/
def pyContentTruthy : PyContent → Bool
  | .noneV => false
  | .strV s => s ≠ ""
  | .mapV keys => keys ≠ []
  | .listV xs => xs ≠ []

/-- The property-set computation of InstanceFile.top_level_properties
(file.py lines 104-117): a mapping contributes its keys, a string is a
singleton, and a list contributes the keys of its mapping members and
its scalar members themselves. -/
def computeTopLevelProperties : PyContent → Finset String
  | .noneV => ∅
  | .strV s => {s}
  | .mapV keys => keys.toFinset
  | .listV xs =>
    xs.foldl (fun acc m =>
      match m with
      | .inl s => insert s acc
      | .inr keys => acc ∪ keys.toFinset) ∅

/-- Mutable state of an InstanceFile relevant to the
top_level_properties cache: the `_top_level_properties` field and a
count of how many times `_get_content` has re-read the file. -/
structure InstanceFileState where
  tlpCache : Finset String
  reads : Nat
deriving DecidableEq

/-- State of a freshly constructed InstanceFile:
`self._top_level_properties = set()` and the file not yet read for
structured content. -/
def initialInstanceFileState : InstanceFileState := { tlpCache := ∅, reads := 0 }

/-- One access to the InstanceFile.top_level_properties property
(file.py lines 91-119): when the cached set is non-empty it is returned
as is; otherwise `_get_content` re-reads the file (reads + 1); a falsy
content returns the (empty) cache without storing anything; otherwise
the computed set is stored and returned. -/
def topLevelPropertiesAccess (content : PyContent) (st : InstanceFileState) :
    Finset String × InstanceFileState :=
  if st.tlpCache = ∅ then
    let st1 : InstanceFileState := { st with reads := st.reads + 1 }
    if pyContentTruthy content then
      let v := computeTopLevelProperties content
      (v, { st1 with tlpCache := v })
    else (st1.tlpCache, st1)
  else (st.tlpCache, st)

/-- The top_level_properties value observed by automap for a file with
the given structured content (a fresh access on a fresh InstanceFile). -/
def tlpOfFile (content : PyContent) : Finset String :=
  (topLevelPropertiesAccess content initialInstanceFileState).1

/-- InstanceFile.add_matches_by_property_automap (file.py lines
163-175): every schema whose top_level_properties intersect the
top_level_properties of the file is added to the matches set,
unconditionally on the current matches.  `schemas` is the
schema_manager.iter_schemas() listing of (schema_id,
top_level_properties). -/
def addMatchesByPropertyAutomap (schemas : List (String × Finset String))
    (tlp : Finset String) (matchesSet : Finset String) : Finset String :=
  matchesSet ∪
    ((schemas.filter (fun p => decide ((p.2 ∩ tlp).Nonempty))).map Prod.fst).toFinset

/-- The complete matches computation for one instance file as performed
by `cli.validate`: static mapping and decorator at construction time,
then `add_matches_by_property_automap` over all instances exactly when
config.data_file_automap is set (cli.py lines 82-83). -/
def finalMatches (schemaMapping : List (String × List String)) (filename : String)
    (content : List Char) (structured : PyContent)
    (schemas : List (String × Finset String)) (automapEnabled : Bool) : Finset String :=
  let m := instanceFileInitMatches schemaMapping filename content
  if automapEnabled then addMatchesByPropertyAutomap schemas (tlpOfFile structured) m
  else m

/-! ## schemas/jsonschema.py : structural validation

The jsonschema library (Draft7Validator) is external; it is embedded
here as an executable fragment of Draft-7 semantics covering the
keywords the repository uses and rewrites: type, properties, required,
additionalProperties (boolean form) and items.  Each produced error
carries the keyword that raised it (ValidationError.validator), its
absolute path and a message; as in the library, keywords are checked
independently of one another, object keywords are skipped on non-object
instances and items on non-array instances, and sub-schemas of present
properties and of array members are checked recursively with the key or
index prepended to the path. -/

/-- JSON values. -/
inductive JVal where
  | nullV
  | boolV (b : Bool)
  | numV (n : Int)
  | strV (s : String)
  | arrV (xs : List JVal)
  | objV (fields : List (String × JVal))

/-- Draft-7 primitive type names. -/
inductive JType where
  | objectT | arrayT | stringT | integerT | numberT | booleanT | nullT
deriving DecidableEq

/-- Whether a value conforms to a Draft-7 type name (booleans are not
integers). -/
def typeOk : JType → JVal → Bool
  | .objectT, .objV _ => true
  | .arrayT, .arrV _ => true
  | .stringT, .strV _ => true
  | .integerT, .numV _ => true
  | .numberT, .numV _ => true
  | .booleanT, .boolV _ => true
  | .nullT, .nullV => true
  | _, _ => false

/-- The fragment of a Draft-7 schema document the repository relies on.
additionalProperties is kept in its boolean form: none models an absent
keyword (which Draft-7 treats as permissive). -/
inductive JSchema where
  | mk (jtype : Option JType)
      (properties : List (String × JSchema))
      (required : List String)
      (addProps : Option Bool)
      (items : Option JSchema)

/-- The `properties` field of a schema. -/
def JSchema.properties : JSchema → List (String × JSchema)
  | .mk _ p _ _ _ => p

/-- The `additionalProperties` field of a schema. -/
def JSchema.addProps : JSchema → Option Bool
  | .mk _ _ _ a _ => a

/-- The `type` field of a schema. -/
def JSchema.jtype : JSchema → Option JType
  | .mk t _ _ _ _ => t

/-- The `items` field of a schema. -/
def JSchema.items : JSchema → Option JSchema
  | .mk _ _ _ _ i => i

/-- One error of the underlying structural validator: the keyword that
produced it (ValidationError.validator), the absolute path, and the
message. -/
structure VErr where
  keyword : String
  path : List String
  message : String
deriving DecidableEq

/-- Rendering of a type name in an error message. -/
def typeName : JType → String
  | .objectT => "object"
  | .arrayT => "array"
  | .stringT => "string"
  | .integerT => "integer"
  | .numberT => "number"
  | .booleanT => "boolean"
  | .nullT => "null"

/-- Message of a type violation. -/
def typeErrMessage (t : JType) : String := "is not of type " ++ typeName t

/-- Message of a missing required property. -/
def requiredErrMessage (k : String) : String := k ++ " is a required property"

/-- Message of an additionalProperties violation, naming the undeclared
keys. -/
def apErrMessage (extras : List String) : String :=
  "Additional properties are not allowed: " ++ String.intercalate ", " extras

/-- Key list of a JSON object. -/
def objKeys (fields : List (String × JVal)) : List String := fields.map Prod.fst

/-- Keys of the instance not declared among the schema properties (the
extras reported by a boolean-false additionalProperties). -/
def extraKeys (props : List (String × JSchema)) (fields : List (String × JVal)) :
    List String :=
  (objKeys fields).filter (fun k => !(props.map Prod.fst).contains k)

/-- Draft7Validator.iter_errors on the embedded fragment.  Keywords are
checked independently; sub-schema errors get the property key or the
array index prepended to their path. -/
def iterErrors : JSchema → JVal → List VErr
  | .mk t props req ap items, v =>
    let typeErrs : List VErr := match t with
      | some ty => if typeOk ty v then [] else [⟨"type", [], typeErrMessage ty⟩]
      | none => []
    let reqErrs : List VErr := match v with
      | .objV fields =>
        (req.filter (fun k => !(objKeys fields).contains k)).map
          (fun k => ⟨"required", [], requiredErrMessage k⟩)
      | _ => []
    let propErrs : List VErr := match v with
      | .objV fields =>
        (props.attach.map (fun p =>
          match fields.lookup p.1.1 with
          | some val => (iterErrors p.1.2 val).map (fun e => { e with path := p.1.1 :: e.path })
          | none => ([] : List VErr))).flatten
      | _ => []
    let apErrs : List VErr := match v with
      | .objV fields =>
        if ap = some false then
          if extraKeys props fields = [] then []
          else [⟨"additionalProperties", [], apErrMessage (extraKeys props fields)⟩]
        else []
      | _ => []
    let itemErrs : List VErr := match items, v with
      | some sub, .arrV xs =>
        (xs.enum.map (fun ix =>
          (iterErrors sub ix.2).map (fun e => { e with path := toString ix.1 :: e.path }))).flatten
      | _, _ => []
    typeErrs ++ reqErrs ++ propErrs ++ apErrs ++ itemErrs
termination_by s _ => sizeOf s
decreasing_by
· have h := List.sizeOf_lt_of_mem p.2
  rcases p with ⟨⟨pk, psub⟩, hp⟩
  simp at h ⊢
  omega
· simp
  omega

/-- The schema rewrite performed by JsonSchema.__get_strict_validator
(jsonschema.py lines 102-133): additionalProperties is forced to false
at the top level, and for every declared property whose `items`
sub-schema has type object, that sub-schema also gets
additionalProperties false.  Nothing deeper is touched (the code only
goes one level down). -/
def strictPropTransform (prop : JSchema) : JSchema :=
  match prop with
  | .mk t p r a i =>
    match i with
    | some (.mk it ip ir _ ii) =>
      if it = some .objectT then .mk t p r a (some (.mk it ip ir (some false) ii))
      else prop
    | none => prop

/-- The full strict-mode schema copy: top-level additionalProperties
set to false plus the one-level items rewrite above. -/
def strictTransform : JSchema → JSchema
  | .mk t props req _ items =>
    .mk t (props.map (fun p => (p.1, strictPropTransform p.2))) req (some false) items

/-- JsonSchema.validate (jsonschema.py lines 48-70): pick the strict or
plain validator, add one FAIL ValidationResult per error (message and
absolute path from the error), and a single PASS when there is no
error. -/
def jsonSchemaValidate (schemaData : JSchema) (sid : String) (data : JVal)
    (strict : Bool) : List ValidationResult :=
  let errs := iterErrors (if strict then strictTransform schemaData else schemaData) data
  if errs.isEmpty then [{ result := RESULT_PASS, schema_id := sid }]
  else errs.map (fun e =>
    { result := RESULT_FAIL, schema_id := sid, message := some e.message,
      absolute_path := e.path })

/-- A validation result in the dict form produced by
`result.model_dump(exclude_unset=True, exclude_none=True)`: PASS
results only carry result and schema_id; FAIL results also carry
message and absolute_path. -/
structure ResultDict where
  result : String
  schema_id : String
  message : Option String
  absolute_path : Option (List String)
deriving DecidableEq

/-- JsonSchema.validate_to_dict (jsonschema.py lines 72-87). -/
def validateToDict (schemaData : JSchema) (sid : String) (data : JVal)
    (strict : Bool) : List ResultDict :=
  (jsonSchemaValidate schemaData sid data strict).map (fun r =>
    if r.result = RESULT_FAIL then
      ⟨r.result, r.schema_id, r.message, some r.absolute_path⟩
    else ⟨r.result, r.schema_id, none, none⟩)

/-! ## schemas/manager.py : invalid-fixture self test and generation -/

/-- The sort key used by test_schema_invalid:
`i.get("message", "")`. -/
def msgKey (d : ResultDict) : String := d.message.getD ""

/-- `sorted(results, key=lambda i: i.get("message", ""))` — a stable
sort by message (Python sorted and List.mergeSort are both stable). -/
def sortByMessage (rs : List ResultDict) : List ResultDict :=
  rs.mergeSort (fun a b => decide (msgKey a ≤ msgKey b))

/-- The per-test-directory comparison of SchemaManager.test_schema_invalid
(manager.py lines 210-253): produced and expected result dicts are each
sorted by message and compared for full list equality; mismatch yields a
single FAIL ValidationResult naming the expected-results file, equality
a single PASS, both tagged instance_type TEST. -/
def testSchemaInvalidCompare (tmpResults expectedResults : List ResultDict)
    (sid testDir testLoc expectedFile : String) : ValidationResult :=
  if sortByMessage tmpResults ≠ sortByMessage expectedResults then
    { result := RESULT_FAIL, schema_id := sid, instance_type := some "TEST",
      instance_name := some testDir, instance_location := some testLoc,
      message := some ("Invalid test results do not match expected test results from "
        ++ expectedFile) }
  else
    { result := RESULT_PASS, schema_id := sid, instance_type := some "TEST",
      instance_name := some testDir, instance_location := some testLoc }

/-- SchemaManager._ensure_results_invalid (manager.py lines 331-346):
true when some produced result is a PASS, in which case generation
errors out and exits. -/
def ensureResultsInvalidFails (results : List ResultDict) : Bool :=
  (results.map (fun r => r.result)).contains "PASS"

/-- One test directory of SchemaManager.generate_invalid_tests_expected
(manager.py lines 272-286): validate the data, abort (sys.exit) when any
result passes, otherwise persist the produced results as the new
expected baseline (persistence through dump_data_to_yaml and the later
re-load are modelled as the identity on the result dicts). -/
def generateInvalidExpectedOne (schemaData : JSchema) (sid : String) (data : JVal) :
    Except String (List ResultDict) :=
  let results := validateToDict schemaData sid data false
  if ensureResultsInvalidFails results then
    .error "is schema valid, but should be schema invalid as it defines an invalid test"
  else .ok results

/-- generate_invalid_tests_expected over the list of invalid test
directories of one schema: the loop aborts at the first directory whose
data validates (sys.exit from _ensure_results_invalid), and otherwise
pairs each directory name with the persisted baseline. -/
def generateInvalidExpected (schemaData : JSchema) (sid : String) :
    List (String × JVal) → Except String (List (String × List ResultDict))
  | [] => .ok []
  | td :: rest =>
    match generateInvalidExpectedOne schemaData sid td.2 with
    | .error e => .error e
    | .ok rs =>
      match generateInvalidExpected schemaData sid rest with
      | .error e => .error e
      | .ok tail => .ok ((td.1, rs) :: tail)

/-! ## schemas/manager.py and schemas/validator.py : loading -/

/-- A structural-schema document as discovered on disk, seen through
the data the loader consumes: its filename, its identity field ($id)
and the list of messages the external Draft-7 meta-schema validator
reports for the document (empty when the document is meta-valid). -/
structure SchemaFileModel where
  filename : String
  sid : String
  metaErrors : List String
deriving DecidableEq

/-- The FAIL ValidationResult built by check_if_valid for one
meta-schema error message. -/
def metaFailResult (sid m : String) : ValidationResult :=
  { result := RESULT_FAIL, schema_id := sid, message := some m,
    instance_type := some "SCHEMA", instance_name := some sid,
    instance_location := some "" }

/-- JsonSchema.check_if_valid (jsonschema.py lines 135-171): one FAIL
ValidationResult per meta-schema error, or a single PASS, all tagged
instance_type SCHEMA. -/
def checkIfValid (f : SchemaFileModel) : List ValidationResult :=
  if f.metaErrors.isEmpty then
    [{ result := RESULT_PASS, schema_id := f.sid, instance_type := some "SCHEMA",
       instance_name := some f.sid, instance_location := some "" }]
  else
    f.metaErrors.map (metaFailResult f.sid)

/-- The InvalidJSONSchema exception as surfaced to the user
(exceptions.py lines 23-38): its message is built from the offending
filename and the messages of the failing check_if_valid results. -/
structure InvalidJSONSchemaErr where
  filename : String
  errors : List String
deriving DecidableEq

/-- SchemaManager.create_schema_from_file (manager.py lines 54-77):
the schema is returned only when every check_if_valid result passed;
otherwise InvalidJSONSchema is raised, carrying the filename and (via
__str__) the messages of the non-passing results. -/
def createSchemaFromFile (f : SchemaFileModel) : Except InvalidJSONSchemaErr SchemaFileModel :=
  if (checkIfValid f).all (fun r => r.passed) then .ok f
  else .error ⟨f.filename,
    (checkIfValid f).filterMap (fun r => if r.passed then none else r.message)⟩

/-- Python dict assignment d[k] = v: overwrite in place when the key
exists, else append. -/
def dictInsert {V : Type} (d : List (String × V)) (k : String) (v : V) :
    List (String × V) :=
  if (d.map Prod.fst).contains k then
    d.map (fun p => if p.1 = k then (k, v) else p)
  else d ++ [(k, v)]

/-- Python dict.update(other): every entry of other is assigned into d
in order. -/
def dictUpdate {V : Type} (d other : List (String × V)) : List (String × V) :=
  other.foldl (fun acc p => dictInsert acc p.1 p.2) d

/-- Python dict lookup. -/
def dictGet {V : Type} (d : List (String × V)) (k : String) : Option V :=
  (d.find? (fun p => p.1 == k)).map Prod.snd

/-- The schema-file loop of SchemaManager.__init__ (manager.py lines
45-48): each discovered file goes through create_schema_from_file (a
raised InvalidJSONSchema aborts the whole construction) and is then
assigned into the dict under its id: `self.schemas[schema.get_id()] =
schema`. -/
def loadSchemaFiles (files : List SchemaFileModel) :
    Except InvalidJSONSchemaErr (List (String × SchemaFileModel)) :=
  files.foldlM (fun acc f =>
    (createSchemaFromFile f).map (fun s => dictInsert acc s.sid s)) []

/-- A validator plugin definition as discovered by load_validators_path:
the defining class name and the optional explicit id attribute. -/
structure ValidatorDefModel where
  name : String
  idAttr : Option String
deriving DecidableEq

/-- `if not hasattr(cls, "id"): cls.id = name` — the effective id of a
validator defaults to its class name. -/
def effectiveId (v : ValidatorDefModel) : String := v.idAttr.getD v.name

/-- load_validators_path (validator.py lines 166-197): validators are
collected in discovery order; a validator whose effective id is already
present is skipped with a printed message (first one wins), never
overwritten. -/
def loadValidatorsPath (vdefs : List ValidatorDefModel) :
    List (String × ValidatorDefModel) :=
  vdefs.foldl (fun acc v =>
    if (acc.map Prod.fst).contains (effectiveId v) then acc
    else acc ++ [(effectiveId v, v)]) []

/-- An entry of SchemaManager.schemas: a structural schema or a plugin
validator. -/
abbrev SchemaEntry := SchemaFileModel ⊕ ValidatorDefModel

/-- SchemaManager.__init__ (manager.py lines 25-52): load all schema
files, then `self.schemas.update(validators)` with the plugin
validators. -/
def schemaManagerInit (files : List SchemaFileModel) (vdefs : List ValidatorDefModel) :
    Except InvalidJSONSchemaErr (List (String × SchemaEntry)) :=
  (loadSchemaFiles files).map (fun d =>
    dictUpdate (d.map (fun p => (p.1, (Sum.inl p.2 : SchemaEntry))))
      ((loadValidatorsPath vdefs).map (fun p => (p.1, (Sum.inr p.2 : SchemaEntry)))))

/-! ## schemas/validator.py : the JMESPath predicate validator

The jmespath engine is external: `jmespath.search(self.left, data)` and
the search of a compiled right-hand expression appear as explicit
inputs (`jmespath.search` returns None when the query has no match).
Python values flowing through the comparison are modelled by `PyV`. -/

/-- A Python value as produced by a jmespath search. -/
inductive PyV where
  | noneV
  | boolV (b : Bool)
  | intV (n : Int)
  | strV (s : String)
  | listV (xs : List PyV)

/-- Python truthiness (`if lhs:`): None, False, 0, the empty string and
the empty list are falsy. -/
def pyTruthy : PyV → Bool
  | .noneV => false
  | .boolV b => b
  | .intV n => n ≠ 0
  | .strV s => s ≠ ""
  | .listV xs => !xs.isEmpty

/-- Python == on the modelled values (numbers and booleans compare by
numeric value, lists elementwise). -/
def pyEq : PyV → PyV → Bool
  | .noneV, .noneV => true
  | .boolV a, .boolV b => a == b
  | .boolV a, .intV n => (if a then (1 : Int) else 0) == n
  | .intV n, .boolV a => n == (if a then (1 : Int) else 0)
  | .intV a, .intV b => a == b
  | .strV a, .strV b => a == b
  | .listV xs, .listV ys =>
    xs.length == ys.length && (xs.zip ys).attach.all (fun p => pyEq p.1.1 p.1.2)
  | _, _ => false
termination_by a _ => sizeOf a
decreasing_by
· obtain ⟨⟨a, b⟩, hp⟩ := p
  have h := (List.of_mem_zip hp).1
  have h2 := List.sizeOf_lt_of_mem h
  simp at h2 ⊢
  omega

/-- Python int(x) as used by the ordering operators: ints pass through,
booleans become 0 or 1, numeric strings parse; anything else raises
(returns none). -/
def pyToInt : PyV → Option Int
  | .intV n => some n
  | .boolV b => some (if b then 1 else 0)
  | .strV s => s.toInt?
  | _ => none

/-- Python `v in r`: list membership or substring test; other
combinations raise (none). -/
def pyContains (r v : PyV) : Option Bool :=
  match r, v with
  | .listV xs, _ => some (xs.any (fun x => pyEq x v))
  | .strV rs, .strV vs => some (decide (vs.toList <:+: rs.toList))
  | _, _ => none

/-- The operator table of JmesPathModelValidation.validate (validator.py
lines 68-75): gt, gte, lt and lte compare int coercions, eq is Python
equality, contains is `v in r` with r the left-hand result.  An unknown
operator or a failing coercion raises (none). -/
def applyOp (op : String) (lhs rhs : PyV) : Option Bool :=
  if op = "gt" then
    match pyToInt lhs, pyToInt rhs with
    | some a, some b => some (decide (a > b))
    | _, _ => none
  else if op = "gte" then
    match pyToInt lhs, pyToInt rhs with
    | some a, some b => some (decide (a ≥ b))
    | _, _ => none
  else if op = "eq" then some (pyEq lhs rhs)
  else if op = "lt" then
    match pyToInt lhs, pyToInt rhs with
    | some a, some b => some (decide (a < b))
    | _, _ => none
  else if op = "lte" then
    match pyToInt lhs, pyToInt rhs with
    | some a, some b => some (decide (a ≤ b))
    | _, _ => none
  else if op = "contains" then pyContains lhs rhs
  else none

/-- The right-hand side of a predicate validator: a literal value, or a
compiled jmespath expression given through the result of its search
over the same instance. -/
inductive RightSpec where
  | lit (v : PyV)
  | query (searchResult : PyV)

/-- `rhs` resolution (validator.py lines 79-83). -/
def resolveRight : RightSpec → PyV
  | .lit v => v
  | .query r => r

/-- JmesPathModelValidation.validate (validator.py lines 66-86): `lhs`
is the left-hand search result; when it is truthy the operator is
applied against the resolved right-hand side and a FAIL carrying the
fixed author-supplied error message is recorded exactly when the
comparison is false; when `lhs` is falsy no comparison happens and
nothing is recorded.  A raising coercion or unknown operator is a fatal
error (Except.error). -/
def jmesPathValidate (lhs : PyV) (right : RightSpec) (op : String)
    (errMsg : String) (sid : String) : Except String (List ValidationResult) :=
  if pyTruthy lhs then
    match applyOp op lhs (resolveRight right) with
    | some valid =>
      .ok (if valid then []
        else [{ result := RESULT_FAIL, schema_id := sid, message := some errMsg }])
    | none => .error "TypeError or KeyError in operator application"
  else .ok []

/-! ## cli.py : result aggregation and exit status -/

/-- One iteration of the result loop of cli.validate (cli.py lines
90-101) over the accumulated (printed results, error_exists) state: a
non-passing result is printed and sets error_exists; a passing result
is printed only under --show-pass. -/
def cliStep (showPass : Bool) (acc : List ValidationResult × Bool)
    (r : ValidationResult) : List ValidationResult × Bool :=
  if !r.passed then (acc.1 ++ [r], true)
  else if r.passed && showPass then (acc.1 ++ [r], acc.2)
  else acc

/-- The result-aggregation loop of cli.validate (cli.py lines 89-106):
error_exists starts false and the loop above runs over every produced
result.  Returned: the printed results and error_exists. -/
def cliValidateAggregate (results : List ValidationResult) (showPass : Bool) :
    List ValidationResult × Bool :=
  results.foldl (cliStep showPass) ([], false)

/-- The process exit status of cli.validate given the produced results:
0 when no FAIL was seen, 1 otherwise. -/
def cliValidateExit (results : List ValidationResult) (showPass : Bool) : Nat :=
  if !(cliValidateAggregate results showPass).2 then 0 else 1

/-! ## Supporting lemmas -/

/-- The error_exists flag computed by the cli.validate loop is true
exactly when some result did not pass, whatever the starting
accumulator contributes. -/
theorem cliFold_snd (results : List ValidationResult) (showPass : Bool)
    (acc : List ValidationResult × Bool) :
    (results.foldl (cliStep showPass) acc).2
      = (acc.2 || results.any (fun r => !r.passed)) := by
  induction results generalizing acc with
  | nil => simp
  | cons r rest ih =>
    simp only [List.foldl_cons, List.any_cons]
    rw [ih]
    by_cases h : r.passed <;> by_cases hs : showPass <;>
      simp [cliStep, h, hs, Bool.or_assoc]

/-! ## C10 : run-level pass/fail aggregation -/

/-- C10.  A cli.validate run exits 0 iff every produced ValidationResult
passed; any single FAIL forces exit 1; the --show-pass printing flag
never changes the exit status; and a result counts as passed exactly
when its result field equals PASS, independently of its instance_type. -/
theorem c10_run_clean_iff_all_pass (results : List ValidationResult)
    (showPass showPassOther : Bool) :
    (cliValidateExit results showPass = 0 ↔ ∀ r ∈ results, r.passed = true)
    ∧ cliValidateExit results showPass = cliValidateExit results showPassOther
    ∧ ∀ (r : ValidationResult) (t : Option String),
        (r.passed = true ↔ r.result = RESULT_PASS)
        ∧ ({ r with instance_type := t } : ValidationResult).passed = r.passed := by
  refine ⟨?_, ?_, ?_⟩
  · unfold cliValidateExit cliValidateAggregate
    rw [cliFold_snd]
    constructor
    · intro h r hr
      by_cases hp : r.passed
      · exact hp
      · exfalso
        have : results.any (fun r => !r.passed) = true :=
          List.any_eq_true.mpr ⟨r, hr, by simp [hp]⟩
        simp [this] at h
    · intro h
      have : results.any (fun r => !r.passed) = false := by
        rw [List.any_eq_false]
        intro r hr
        simp [h r hr]
      simp [this]
  · unfold cliValidateExit cliValidateAggregate
    rw [cliFold_snd, cliFold_snd]
  · intro r t
    constructor
    · unfold ValidationResult.passed
      exact ⟨fun h => by simpa using h, fun h => by simp [h]⟩
    · rfl

/-! ## C9 : the top_level_properties cache -/

/-- C9 (amended).  The cache sentinel of
InstanceFile.top_level_properties is set-emptiness: once an access has
produced a non-empty property set, that set is cached and every later
access returns it unchanged without re-reading the file.  (The claim as
stated fails when the computed set is empty: see the counterexample.) -/
theorem c9_tlp_cache_nonempty (content : PyContent) (st : InstanceFileState)
    (hne : (topLevelPropertiesAccess content st).1 ≠ ∅) :
    topLevelPropertiesAccess content ((topLevelPropertiesAccess content st).2)
      = topLevelPropertiesAccess content st := by
  by_cases h0 : st.tlpCache = ∅
  · by_cases ht : pyContentTruthy content
    · have hC : computeTopLevelProperties content ≠ ∅ := by
        simpa [topLevelPropertiesAccess, h0, ht] using hne
      simp [topLevelPropertiesAccess, h0, ht, hC]
    · exfalso
      apply hne
      simp [topLevelPropertiesAccess, h0, ht]
  · simp [topLevelPropertiesAccess, h0]

/-- Witness for C9: a mapping with one key caches its singleton property
set, and a second access returns the same answer without change. -/
theorem c9_witness :
    topLevelPropertiesAccess (.mapV ["ntp"])
        ((topLevelPropertiesAccess (.mapV ["ntp"]) initialInstanceFileState).2)
      = topLevelPropertiesAccess (.mapV ["ntp"]) initialInstanceFileState :=
  c9_tlp_cache_nonempty (.mapV ["ntp"]) initialInstanceFileState (by decide)

/-- Counterexample for C9 as stated: when the file content is the list
`[{}]` (truthy, but with an empty computed property set), nothing is
cached and every access re-reads the file: after two accesses the file
has been read twice. -/
theorem c9_counterexample :
    (topLevelPropertiesAccess (.listV [Sum.inr []])
        ((topLevelPropertiesAccess (.listV [Sum.inr []]) initialInstanceFileState).2)).2.reads
      = 2 := by decide

/-! ## C8 : the predicate-expression validator -/

/-- C8 (amended).  The comparison of JmesPathModelValidation.validate is
gated on Python truthiness of the left-hand search result, not on
whether the query matched: a falsy left-hand result (None, but also 0,
False, the empty string or the empty list) records nothing and
get_results turns that into a vacuous PASS; when the left-hand result is
truthy the operator is applied against the resolved right-hand side and
a FAIL carrying the fixed author-supplied message is recorded exactly
when the comparison evaluates to false. -/
theorem c8_truthiness_gates_comparison (lhs : PyV) (right : RightSpec) (op : String)
    (errMsg sid : String) :
    (pyTruthy lhs = false →
      jmesPathValidate lhs right op errMsg sid = .ok []
      ∧ getResults sid [] = [{ result := RESULT_PASS, schema_id := sid }])
    ∧ (∀ b : Bool, pyTruthy lhs = true →
        applyOp op lhs (resolveRight right) = some b →
        jmesPathValidate lhs right op errMsg sid
          = .ok (if b then []
              else [{ result := RESULT_FAIL, schema_id := sid, message := some errMsg }])) := by
  constructor
  · intro hf
    exact ⟨by simp [jmesPathValidate, hf], by simp [getResults]⟩
  · intro b ht hop
    simp [jmesPathValidate, ht, hop]

/-- Witness for C8: a truthy left-hand result 5 compared with gte
against the literal 3 applies the comparison and yields no failure, and
a falsy left-hand result records nothing. -/
theorem c8_witness :
    jmesPathValidate (.intV 5) (.lit (.intV 3)) "gte" "too few" "schemas/x" = .ok []
    ∧ jmesPathValidate .noneV (.lit (.intV 3)) "gte" "too few" "schemas/x" = .ok [] := by
  constructor
  · have h := (c8_truthiness_gates_comparison (.intV 5) (.lit (.intV 3)) "gte"
      "too few" "schemas/x").2 true (by decide) (by decide)
    simpa using h
  · exact ((c8_truthiness_gates_comparison .noneV (.lit (.intV 3)) "gte"
      "too few" "schemas/x").1 (by decide)).1

/-- Counterexample for C8 as stated: the left-hand query result 0 is a
match (it is not None), the eq comparison against 1 is false, yet no
FAIL is produced because 0 is falsy and the comparison is skipped. -/
theorem c8_counterexample :
    jmesPathValidate (.intV 0) (.lit (.intV 1)) "eq" "must equal one" "schemas/x" = .ok []
    ∧ applyOp "eq" (.intV 0) (.intV 1) = some false
    ∧ PyV.intV 0 ≠ PyV.noneV := by
  refine ⟨rfl, ?_, fun h => PyV.noConfusion h⟩
  simp [applyOp, pyEq]

/-! ## C7 : the decorator comment -/

/-- A successful lastTagSplit exhibits the pattern as an infix. -/
theorem lastTagSplit_isInfix (pat : List Char) :
    ∀ (l s : List Char), lastTagSplit pat l = some s → pat <:+: l := by
  intro l
  induction l with
  | nil => intro s h; simp [lastTagSplit] at h
  | cons c rest ih =>
    intro s h
    unfold lastTagSplit at h
    cases hrec : lastTagSplit pat rest with
    | some suffix =>
      exact List.infix_cons (ih suffix hrec)
    | none =>
      rw [hrec] at h
      by_cases hp : pat.isPrefixOf (c :: rest)
      · exact (List.isPrefixOf_iff_prefix.mp hp).isInfix
      · simp [hp] at h

/-- takeWhile of an append stops exactly at the first failing element. -/
theorem takeWhile_append_stop (p : Char → Bool) (l rest : List Char) (c : Char)
    (hl : ∀ x ∈ l, p x = true) (hc : p c = false) :
    (l ++ c :: rest).takeWhile p = l := by
  induction l with
  | nil => simp [List.takeWhile_cons, hc]
  | cons a l ih =>
    have ha : p a = true := hl a (by simp)
    simp only [List.cons_append, List.takeWhile_cons, ha, if_true]
    rw [ih (fun x hx => hl x (by simp [hx]))]

/-- takeWhile keeps a list all of whose elements satisfy the predicate. -/
theorem takeWhile_eq_self_of_all (p : Char → Bool) (l : List Char)
    (hl : ∀ x ∈ l, p x = true) : l.takeWhile p = l := by
  induction l with
  | nil => rfl
  | cons a l ih =>
    have ha : p a = true := hl a (by simp)
    simp only [List.takeWhile_cons, ha, if_true]
    rw [ih (fun x hx => hl x (by simp [hx]))]

/-- A matching decorator adds exactly the parsed payload ids. -/
theorem addMatchesByDecorator_of_match (content payload : List Char) (m : Finset String)
    (h : reMatchDecorator content = some payload) :
    addMatchesByDecorator content m = m ∪ decoratorIdsOfPayload payload := by
  have hguard : tagChars <:+: content := by
    unfold reMatchDecorator at h
    by_cases hh : (content.takeWhile (· ≠ '\n')).head? = some '#'
    · rw [if_pos hh] at h
      cases hsplit : lastTagSplit tagColon (content.takeWhile (· ≠ '\n')) with
      | some suffix =>
        have h1 : tagColon <:+: content.takeWhile (· ≠ '\n') :=
          lastTagSplit_isInfix tagColon _ suffix hsplit
        have h2 : tagChars <+: tagColon := ⟨[':'], rfl⟩
        have h3 : (content.takeWhile (· ≠ '\n')) <+: content := List.takeWhile_prefix _
        exact (h2.isInfix.trans h1).trans h3.isInfix
      | none => rw [hsplit] at h; exact absurd h (by simp)
    · rw [if_neg hh] at h; exact absurd h (by simp)
  unfold addMatchesByDecorator
  rw [if_pos hguard, h]

/-- A failing decorator match leaves the matches set unchanged. -/
theorem addMatchesByDecorator_of_none (content : List Char) (m : Finset String)
    (h : reMatchDecorator content = none) :
    addMatchesByDecorator content m = m := by
  unfold addMatchesByDecorator
  by_cases hguard : tagChars <:+: content
  · rw [if_pos hguard, h]
  · rw [if_neg hguard]

/-- A successful lastTagSplit result is a suffix of the searched list. -/
theorem lastTagSplit_isSuffix (pat : List Char) :
    ∀ (l s : List Char), lastTagSplit pat l = some s → s <:+ l := by
  intro l
  induction l with
  | nil => intro s h; simp [lastTagSplit] at h
  | cons c rest ih =>
    intro s h
    unfold lastTagSplit at h
    cases hrec : lastTagSplit pat rest with
    | some suffix =>
      rw [hrec] at h
      injection h with hss
      subst hss
      exact (ih _ hrec).trans (List.suffix_cons c rest)
    | none =>
      rw [hrec] at h
      by_cases hp : pat.isPrefixOf (c :: rest)
      · rw [if_pos hp] at h
        injection h with hss
        subst hss
        exact List.drop_suffix _ _
      · rw [if_neg hp] at h
        cases h

/-- dropWhile walks into the second part of an append whose first part
it consumes entirely. -/
theorem dropWhile_append_of_all (p : Char → Bool) (a b : List Char)
    (h : ∀ c ∈ a, p c = true) :
    (a ++ b).dropWhile p = b.dropWhile p := by
  induction a with
  | nil => rfl
  | cons c a ih =>
    rw [List.cons_append, List.dropWhile_cons, if_pos (h c (by simp))]
    exact ih (fun x hx => h x (by simp [hx]))

/-- dropWhile stops inside the first part of an append when that part
does not vanish. -/
theorem dropWhile_append_of_ne_nil (p : Char → Bool) (a b : List Char)
    (h : a.dropWhile p ≠ []) :
    (a ++ b).dropWhile p = a.dropWhile p ++ b := by
  induction a with
  | nil => exact absurd rfl h
  | cons c a ih =>
    by_cases hc : p c = true
    · rw [List.dropWhile_cons, if_pos hc] at h
      rw [List.cons_append, List.dropWhile_cons, if_pos hc,
        List.dropWhile_cons, if_pos hc]
      exact ih h
    · rw [List.cons_append, List.dropWhile_cons, if_neg hc,
        List.dropWhile_cons, if_neg hc]
      simp

/-- C7 (amended).  The decorator match is anchored to the start of the
file: it succeeds only when the first line starts with `#` and contains
the tag (a first line on which the regex fails means nothing is ever
added, whatever follows), a successful match contributes exactly the
comma-separated, whitespace-stripped payload ids, and a failing match
leaves the matches set unchanged.  The payload however is not confined
to the first line: the greedy `\s*` matches newlines, so when only
whitespace follows the last tag occurrence on the first line the
captured payload is the first non-whitespace line below (conjunct
four); when non-whitespace follows the tag on the first line, later
lines are irrelevant (conjunct five). -/
theorem c7_decorator_match_anchored :
    (∀ (l rest : List Char) (m : Finset String), '\n' ∉ l →
      reMatchDecorator l = none →
      addMatchesByDecorator (l ++ '\n' :: rest) m = m)
    ∧ (∀ (content payload : List Char) (m : Finset String),
        reMatchDecorator content = some payload →
        addMatchesByDecorator content m = m ∪ decoratorIdsOfPayload payload)
    ∧ (∀ (content : List Char) (m : Finset String),
        reMatchDecorator content = none →
        addMatchesByDecorator content m = m)
    ∧ (∀ (l suffix rest : List Char), '\n' ∉ l → l.head? = some '#' →
        lastTagSplit tagColon l = some suffix →
        (∀ c ∈ suffix, pyWhitespace c = true) →
        reMatchDecorator (l ++ '\n' :: rest)
          = some ((rest.dropWhile pyWhitespace).takeWhile (fun c => c ≠ '\n')))
    ∧ (∀ (l suffix rest : List Char), '\n' ∉ l →
        lastTagSplit tagColon l = some suffix →
        suffix.dropWhile pyWhitespace ≠ [] →
        reMatchDecorator (l ++ '\n' :: rest) = reMatchDecorator l) := by
  refine ⟨?_, addMatchesByDecorator_of_match, addMatchesByDecorator_of_none, ?_, ?_⟩
  · intro l rest m hl hnone
    apply addMatchesByDecorator_of_none
    have hall : ∀ x ∈ l, (decide (x ≠ '\n')) = true := by
      intro x hx
      simp only [decide_eq_true_eq]
      exact fun hxe => hl (hxe ▸ hx)
    have hfl1 : (l ++ '\n' :: rest).takeWhile (fun c => decide (c ≠ '\n')) = l :=
      takeWhile_append_stop _ l rest '\n' hall (by simp)
    have hfl2 : l.takeWhile (fun c => decide (c ≠ '\n')) = l :=
      takeWhile_eq_self_of_all _ l hall
    unfold reMatchDecorator at hnone ⊢
    simp only [hfl2] at hnone
    simp only [hfl1]
    by_cases hh : l.head? = some '#'
    · rw [if_pos hh] at hnone ⊢
      cases hsplit : lastTagSplit tagColon l with
      | some suffix =>
        rw [hsplit] at hnone
        simp at hnone
      | none =>
        simp only [hsplit]
    · rw [if_neg hh]
  · intro l suffix rest hl hh hsplit hws
    have hall : ∀ x ∈ l, (decide (x ≠ '\n')) = true := by
      intro x hx
      simp only [decide_eq_true_eq]
      exact fun hxe => hl (hxe ▸ hx)
    have hfl1 : (l ++ '\n' :: rest).takeWhile (fun c => decide (c ≠ '\n')) = l :=
      takeWhile_append_stop _ l rest '\n' hall (by simp)
    unfold reMatchDecorator
    simp only [hfl1]
    rw [if_pos hh]
    simp only [hsplit, List.drop_left]
    rw [dropWhile_append_of_all pyWhitespace suffix ('\n' :: rest) hws,
      List.dropWhile_cons, if_pos (by decide)]
  · intro l suffix rest hl hsplit hne
    have hall : ∀ x ∈ l, (decide (x ≠ '\n')) = true := by
      intro x hx
      simp only [decide_eq_true_eq]
      exact fun hxe => hl (hxe ▸ hx)
    have hfl1 : (l ++ '\n' :: rest).takeWhile (fun c => decide (c ≠ '\n')) = l :=
      takeWhile_append_stop _ l rest '\n' hall (by simp)
    have hfl2 : l.takeWhile (fun c => decide (c ≠ '\n')) = l :=
      takeWhile_eq_self_of_all _ l hall
    unfold reMatchDecorator
    simp only [hfl1, hfl2]
    by_cases hh : l.head? = some '#'
    · rw [if_pos hh, if_pos hh]
      simp only [hsplit, List.drop_left, List.drop_length, List.append_nil]
      rw [dropWhile_append_of_ne_nil pyWhitespace suffix ('\n' :: rest) hne]
      have hsub : ∀ c ∈ suffix.dropWhile pyWhitespace, (decide (c ≠ '\n')) = true := by
        intro c hc
        have hcl : c ∈ l := (lastTagSplit_isSuffix tagColon l suffix hsplit).subset
          ((List.dropWhile_sublist pyWhitespace).subset hc)
        simp only [decide_eq_true_eq]
        exact fun he => hl (he ▸ hcl)
      rw [takeWhile_append_stop _ _ rest '\n' hsub (by simp),
        takeWhile_eq_self_of_all _ _ hsub]
    · rw [if_neg hh, if_neg hh]

/-- Witness for C7: the match on a first line ending in the bare tag
captures the (whitespace-stripped prefix of the) second line, exactly
as the Python regex does; and a first-line decorator with two
comma-separated ids contributes exactly those two stripped ids. -/
theorem c7_witness :
    reMatchDecorator ("# jsonschema:".toList ++ '\n' :: "schemas/ntp".toList)
        = some ((("schemas/ntp".toList).dropWhile pyWhitespace).takeWhile
            (fun c => c ≠ '\n'))
    ∧ addMatchesByDecorator ("# jsonschema: schemas/ntp, schemas/dns".toList) ∅
        = ∅ ∪ decoratorIdsOfPayload ("schemas/ntp, schemas/dns".toList) := by
  constructor
  · exact c7_decorator_match_anchored.2.2.2.1 "# jsonschema:".toList [] "schemas/ntp".toList
      (by decide) (by decide) (by decide) (by decide)
  · exact c7_decorator_match_anchored.2.1 ("# jsonschema: schemas/ntp, schemas/dns".toList)
      ("schemas/ntp, schemas/dns".toList) ∅ (by decide)

/-- Counterexample for C7 as stated: the very same decorator line is
ignored when it is the second line of the file, although it is
recognized as the first line; the decorator is not recognized anywhere
in the file. -/
theorem c7_counterexample :
    addMatchesByDecorator ("a: 1\n# jsonschema: schemas/ntp".toList) ∅ = ∅
    ∧ addMatchesByDecorator ("# jsonschema: schemas/ntp".toList) ∅ = {"schemas/ntp"} := by
  constructor
  · decide
  · decide

/-! ## C1 : schema-id resolution for instance files -/

/-- The decorator update is additive: it contributes the same id set
whatever matches are already present. -/
theorem addMatchesByDecorator_additive (content : List Char) (m : Finset String) :
    addMatchesByDecorator content m = m ∪ addMatchesByDecorator content ∅ := by
  cases h : reMatchDecorator content with
  | some payload =>
    rw [addMatchesByDecorator_of_match _ _ _ h, addMatchesByDecorator_of_match _ _ _ h,
      Finset.empty_union]
  | none =>
    rw [addMatchesByDecorator_of_none _ _ h, addMatchesByDecorator_of_none _ _ h,
      Finset.union_empty]

/-- Membership in the automap update. -/
theorem mem_addMatchesByPropertyAutomap (schemas : List (String × Finset String))
    (tlp m : Finset String) (x : String) :
    x ∈ addMatchesByPropertyAutomap schemas tlp m
      ↔ x ∈ m ∨ ∃ props, (x, props) ∈ schemas ∧ (props ∩ tlp).Nonempty := by
  unfold addMatchesByPropertyAutomap
  simp only [Finset.mem_union, List.mem_toFinset, List.mem_map, List.mem_filter]
  constructor
  · rintro (hm | ⟨⟨k, props⟩, ⟨hmem, hint⟩, hk⟩)
    · exact Or.inl hm
    · subst hk
      exact Or.inr ⟨props, hmem, by simpa using hint⟩
  · rintro (hm | ⟨props, hmem, hint⟩)
    · exact Or.inl hm
    · exact Or.inr ⟨(x, props), ⟨hmem, by simpa using hint⟩, rfl⟩

/-- C1 (amended).  The matches of an instance file are the plain union
of the three sources: ids from the static filename mapping, ids from
the decorator comment, and — exactly when automap is enabled — ids of
schemas whose top_level_properties intersect those of the file.  The
decorator ids are added even when the static mapping matched, and
automap (when enabled) adds its ids even when the other two sources
matched; no source suppresses another. -/
theorem c1_matches_union_of_sources (mapping : List (String × List String))
    (filename : String) (content : List Char) (structured : PyContent)
    (schemas : List (String × Finset String)) (automapEnabled : Bool) (x : String) :
    x ∈ finalMatches mapping filename content structured schemas automapEnabled
      ↔ (x ∈ staticMatches mapping filename
          ∨ x ∈ addMatchesByDecorator content ∅
          ∨ (automapEnabled = true
              ∧ ∃ props, (x, props) ∈ schemas
                  ∧ (props ∩ tlpOfFile structured).Nonempty)) := by
  unfold finalMatches instanceFileInitMatches
  rw [addMatchesByDecorator_additive]
  cases automapEnabled with
  | false => simp [Finset.mem_union]
  | true =>
    rw [if_pos rfl, mem_addMatchesByPropertyAutomap]
    simp only [Finset.mem_union]
    tauto

/-- Counterexample for C1 as stated: with a static-mapping hit, a
decorator naming a second id, and automap enabled with an intersecting
schema, all three ids end up in matches — the static mapping does not
suppress the decorator, and automap fires although the other sources
are non-empty. -/
theorem c1_counterexample :
    staticMatches [("dns.yml", ["schemas/dns"])] "dns.yml" = {"schemas/dns"}
    ∧ "schemas/extra" ∈ finalMatches [("dns.yml", ["schemas/dns"])] "dns.yml"
        ("# jsonschema: schemas/extra".toList) (.mapV ["foo"])
        [("schemas/auto", {"foo"})] true
    ∧ "schemas/auto" ∈ finalMatches [("dns.yml", ["schemas/dns"])] "dns.yml"
        ("# jsonschema: schemas/extra".toList) (.mapV ["foo"])
        [("schemas/auto", {"foo"})] true := by
  refine ⟨by decide, by decide, by decide⟩

/-! ## C2, C3 : SchemaManager loading -/

/-- Reduction of pure into Except. -/
theorem except_pure {ε α : Type} (x : α) : (pure x : Except ε α) = Except.ok x := rfl

/-- A meta-valid schema document loads successfully. -/
theorem createSchemaFromFile_valid (f : SchemaFileModel) (h : f.metaErrors = []) :
    createSchemaFromFile f = .ok f := by
  unfold createSchemaFromFile checkIfValid
  simp [h, ValidationResult.passed, RESULT_PASS]

/-- Reduction of bind on an ok value. -/
theorem except_bind_ok {ε α β : Type} (x : α) (g : α → Except ε β) :
    (Except.ok x >>= g) = g x := rfl

/-- Reduction of bind on an error. -/
theorem except_bind_error {ε α β : Type} (e : ε) (g : α → Except ε β) :
    ((Except.error e : Except ε α) >>= g) = Except.error e := rfl

/-- Extracting the messages of the FAIL results built by check_if_valid
recovers the meta-schema messages. -/
theorem filterMap_fail_messages (sid : String) (ms : List String) :
    ((ms.map (metaFailResult sid)).filterMap
      (fun r => if r.passed then none else r.message)) = ms := by
  induction ms with
  | nil => rfl
  | cons m t ih =>
    have hp : (metaFailResult sid m).passed = false := by
      simp [metaFailResult, ValidationResult.passed, RESULT_FAIL, RESULT_PASS]
    have hm : (metaFailResult sid m).message = some m := rfl
    simp only [List.map_cons, List.filterMap_cons, hp, hm, Bool.false_eq_true,
      if_false, ih]

/-- A meta-invalid schema document raises InvalidJSONSchema carrying the
filename and all meta-schema messages. -/
theorem createSchemaFromFile_invalid (f : SchemaFileModel) (h : f.metaErrors ≠ []) :
    createSchemaFromFile f = .error ⟨f.filename, f.metaErrors⟩ := by
  obtain ⟨m, rest, hrest⟩ : ∃ m rest, f.metaErrors = m :: rest := by
    cases hm : f.metaErrors with
    | nil => exact absurd hm h
    | cons m rest => exact ⟨m, rest, rfl⟩
  have hempty : f.metaErrors.isEmpty = false := by rw [hrest]; rfl
  have hall : ((f.metaErrors.map (metaFailResult f.sid)).all (fun r => r.passed)) = false := by
    rw [hrest]
    simp [metaFailResult, ValidationResult.passed, RESULT_FAIL, RESULT_PASS]
  unfold createSchemaFromFile checkIfValid
  rw [if_neg (show ¬ (f.metaErrors.isEmpty = true) by
        rw [hempty]; exact Bool.false_ne_true),
    if_neg (show ¬ (((f.metaErrors.map (metaFailResult f.sid)).all
          (fun r => r.passed)) = true) by
        rw [hall]; exact Bool.false_ne_true),
    filterMap_fail_messages]

/-- C2 (amended).  Duplicate schema ids are not rejected: loading two
meta-valid structural-schema documents with the same id succeeds and the
later document silently overwrites the earlier one in the index, while
among plugin validators a duplicate effective id is skipped (the first
definition wins); neither situation is fatal. -/
theorem c2_duplicates_overwrite (f1 f2 : SchemaFileModel) (v1 v2 : ValidatorDefModel)
    (h1 : f1.metaErrors = []) (h2 : f2.metaErrors = []) (hid : f1.sid = f2.sid)
    (hv : effectiveId v1 = effectiveId v2) :
    schemaManagerInit [f1, f2] [] = .ok [(f2.sid, Sum.inl f2)]
    ∧ loadValidatorsPath [v1, v2] = [(effectiveId v1, v1)] := by
  constructor
  · have e1 := createSchemaFromFile_valid f1 h1
    have e2 := createSchemaFromFile_valid f2 h2
    simp [schemaManagerInit, loadSchemaFiles, List.foldlM, e1, e2, Except.map,
      except_bind_ok, except_bind_error, except_pure, dictInsert, dictUpdate,
      loadValidatorsPath, hid, List.contains_cons]
  · simp [loadValidatorsPath, hv]

/-- Witness for C2: two concrete meta-valid documents sharing id x load
without error and the index holds the second; the duplicate validator is
skipped in favour of the first. -/
theorem c2_witness :
    schemaManagerInit [⟨"a.yml", "x", []⟩, ⟨"b.yml", "x", []⟩] []
        = .ok [("x", Sum.inl ⟨"b.yml", "x", []⟩)]
    ∧ loadValidatorsPath [⟨"CheckA", none⟩, ⟨"CheckB", some "CheckA"⟩]
        = [("CheckA", ⟨"CheckA", none⟩)] :=
  c2_duplicates_overwrite ⟨"a.yml", "x", []⟩ ⟨"b.yml", "x", []⟩
    ⟨"CheckA", none⟩ ⟨"CheckB", some "CheckA"⟩ rfl rfl rfl rfl

/-- Counterexample for C2 as stated: loading two distinct documents with
the same identity field x is not an error — construction succeeds and
the first document has been silently replaced by the second. -/
theorem c2_counterexample :
    schemaManagerInit [⟨"one.yml", "x", []⟩, ⟨"two.yml", "x", []⟩] []
        = .ok [("x", Sum.inl ⟨"two.yml", "x", []⟩)]
    ∧ (⟨"one.yml", "x", []⟩ : SchemaFileModel) ≠ ⟨"two.yml", "x", []⟩ :=
  ⟨rfl, by decide⟩

/-- C3.  A discovered structural-schema document that fails the Draft-7
meta-schema check makes the whole SchemaManager construction fail: the
first such document raises InvalidJSONSchema before any data validation
can happen, and the surfaced error carries that document filename
together with the full list of meta-schema messages. -/
theorem c3_invalid_schema_fatal (pre : List SchemaFileModel) (f : SchemaFileModel)
    (post : List SchemaFileModel) (vdefs : List ValidatorDefModel)
    (hpre : ∀ g ∈ pre, g.metaErrors = []) (hf : f.metaErrors ≠ []) :
    schemaManagerInit (pre ++ f :: post) vdefs = .error ⟨f.filename, f.metaErrors⟩ := by
  have hload : ∀ (acc : List (String × SchemaFileModel)) (pre1 : List SchemaFileModel),
      (∀ g ∈ pre1, g.metaErrors = []) →
      (pre1 ++ f :: post).foldlM (fun acc g =>
        (createSchemaFromFile g).map (fun s => dictInsert acc s.sid s)) acc
        = .error ⟨f.filename, f.metaErrors⟩ := by
    intro acc pre1 hpre1
    induction pre1 generalizing acc with
    | nil =>
      simp [List.foldlM, createSchemaFromFile_invalid f hf, Except.map,
        except_bind_error]
    | cons g pre1 ih =>
      have hg := createSchemaFromFile_valid g (hpre1 g (by simp))
      simp only [List.cons_append, List.foldlM_cons, hg, Except.map, except_bind_ok]
      exact ih _ (fun g1 hg1 => hpre1 g1 (by simp [hg1]))
  unfold schemaManagerInit loadSchemaFiles
  rw [hload [] pre hpre]
  rfl

/-- Witness for C3: one meta-valid document followed by a document with
two meta-schema violations aborts the load with that document filename
and both messages. -/
theorem c3_witness :
    schemaManagerInit [⟨"ok.yml", "a", []⟩, ⟨"bad.yml", "b", ["err one", "err two"]⟩] []
        = .error ⟨"bad.yml", ["err one", "err two"]⟩ :=
  c3_invalid_schema_fatal [⟨"ok.yml", "a", []⟩] ⟨"bad.yml", "b", ["err one", "err two"]⟩
    [] [] (by simp) (by simp)

/-! ## C4 : strict-mode structural validation -/

/-- strictTransform does not change the declared property names. -/
theorem strictTransform_prop_names (props : List (String × JSchema)) :
    (props.map (fun p => (p.1, strictPropTransform p.2))).map Prod.fst
      = props.map Prod.fst := by
  induction props with
  | nil => rfl
  | cons p rest ih => simp [ih]

/-- With boolean-false additionalProperties and a non-empty extra-key
list, the additionalProperties error is among the produced errors. -/
theorem apErr_mem_iterErrors (t : Option JType) (props : List (String × JSchema))
    (req : List String) (items : Option JSchema) (fields : List (String × JVal))
    (hextras : extraKeys props fields ≠ []) :
    (⟨"additionalProperties", [], apErrMessage (extraKeys props fields)⟩ : VErr)
      ∈ iterErrors (.mk t props req (some false) items) (.objV fields) := by
  rw [iterErrors.eq_def]
  simp only
  refine List.mem_append.mpr (Or.inl (List.mem_append.mpr (Or.inr ?_)))
  rw [if_pos trivial, if_neg hextras]
  simp

/-- Without a top-level boolean-false additionalProperties, no produced
error with an empty path comes from the additionalProperties keyword. -/
theorem no_root_apErr_of_ap_absent (t : Option JType) (props : List (String × JSchema))
    (req : List String) (items : Option JSchema) (fields : List (String × JVal)) :
    ∀ e ∈ iterErrors (.mk t props req none items) (.objV fields),
      e.path = [] → e.keyword ≠ "additionalProperties" := by
  intro e he hpath
  rw [iterErrors.eq_def] at he
  simp only at he
  rcases List.mem_append.mp he with h4 | h5
  · rcases List.mem_append.mp h4 with h3 | hap
    · rcases List.mem_append.mp h3 with h2 | hprop
      · rcases List.mem_append.mp h2 with htype | hreq
        · cases t with
          | none => simp at htype
          | some ty =>
            by_cases hok : typeOk ty (.objV fields)
            · simp [hok] at htype
            · simp [hok] at htype
              rw [htype]
              exact (by decide : ¬ ("type" : String) = "additionalProperties")
        · obtain ⟨k, hk, hke⟩ := List.mem_map.mp hreq
          rw [← hke]
          exact (by decide : ¬ ("required" : String) = "additionalProperties")
      · obtain ⟨l, hl, hel⟩ := List.mem_flatten.mp hprop
        obtain ⟨p, hp, hpl⟩ := List.mem_map.mp hl
        rw [← hpl] at hel
        cases hlk : List.lookup p.1.1 fields with
        | none => rw [hlk] at hel; simp at hel
        | some val =>
          rw [hlk] at hel
          obtain ⟨e1, he1, hee1⟩ := List.mem_map.mp hel
          rw [← hee1] at hpath
          simp at hpath
    · rw [if_neg (by simp)] at hap
      cases hap
  · cases h5

/-- C4 (amended).  For a schema that does not itself declare
additionalProperties: strict validation of an object with some
top-level key undeclared in the schema properties produces a FAIL at
the instance root whose message names exactly the undeclared keys,
while non-strict validation never produces a root additionalProperties
error.  (The claim as stated is false for schemas that do declare
additionalProperties false: see the counterexample.) -/
theorem c4_strict_flags_undeclared (t : Option JType) (props : List (String × JSchema))
    (req : List String) (items : Option JSchema) (sid : String)
    (fields : List (String × JVal))
    (hundecl : ∃ k, k ∈ objKeys fields ∧ ¬ k ∈ props.map Prod.fst) :
    (∃ r ∈ jsonSchemaValidate (.mk t props req none items) sid (.objV fields) true,
        r.result = RESULT_FAIL ∧ r.absolute_path = []
          ∧ r.message = some (apErrMessage (extraKeys props fields)))
    ∧ (∀ e ∈ iterErrors (.mk t props req none items) (.objV fields),
        e.path = [] → e.keyword ≠ "additionalProperties") := by
  refine ⟨?_, no_root_apErr_of_ap_absent t props req items fields⟩
  obtain ⟨k, hkf, hkp⟩ := hundecl
  have hextras : extraKeys props fields ≠ [] := by
    refine List.ne_nil_of_mem (a := k) ?_
    unfold extraKeys
    refine List.mem_filter.mpr ⟨hkf, ?_⟩
    simpa using hkp
  have hextras2 : extraKeys (props.map (fun p => (p.1, strictPropTransform p.2))) fields
      = extraKeys props fields := by
    unfold extraKeys
    rw [strictTransform_prop_names]
  have hmem : (⟨"additionalProperties", [], apErrMessage (extraKeys props fields)⟩ : VErr)
      ∈ iterErrors (strictTransform (.mk t props req none items)) (.objV fields) := by
    rw [strictTransform]
    have := apErr_mem_iterErrors t (props.map (fun p => (p.1, strictPropTransform p.2)))
      req items fields (by rw [hextras2]; exact hextras)
    rw [hextras2] at this
    exact this
  have hne : iterErrors (strictTransform (.mk t props req none items)) (.objV fields) ≠ [] :=
    List.ne_nil_of_mem hmem
  unfold jsonSchemaValidate
  rw [if_pos rfl, if_neg (fun hc => hne (List.isEmpty_iff.mp hc))]
  refine ⟨_, List.mem_map.mpr ⟨_, hmem, rfl⟩, rfl, rfl, rfl⟩

/-- Witness for C4: a schema declaring only property a, validated
strictly against an object with keys a and b, flags b at the root; the
non-strict error list of the same schema never contains a root
additionalProperties error. -/
theorem c4_witness :
    (∃ r ∈ jsonSchemaValidate
        (.mk (some .objectT) [("a", .mk none [] [] none none)] [] none none)
        "schemas/x" (.objV [("a", .strV "v"), ("b", .strV "w")]) true,
        r.result = RESULT_FAIL ∧ r.absolute_path = []
          ∧ r.message = some (apErrMessage
              (extraKeys [("a", .mk none [] [] none none)]
                [("a", .strV "v"), ("b", .strV "w")])))
    ∧ (∀ e ∈ iterErrors
        (.mk (some .objectT) [("a", .mk none [] [] none none)] [] none none)
        (.objV [("a", .strV "v"), ("b", .strV "w")]),
        e.path = [] → e.keyword ≠ "additionalProperties") :=
  c4_strict_flags_undeclared (some .objectT) [("a", .mk none [] [] none none)] []
    none "schemas/x" [("a", .strV "v"), ("b", .strV "w")]
    ⟨"b", by decide, by decide⟩

/-- Counterexample for C4 as stated: a schema that itself sets
additionalProperties false makes NON-strict validation fail on the
undeclared field b — non-strict validation does not in general leave
undeclared fields unflagged. -/
theorem c4_counterexample :
    jsonSchemaValidate
        (.mk (some .objectT) [("a", .mk none [] [] none none)] [] (some false) none)
        "schemas/x" (.objV [("a", .strV "v"), ("b", .strV "w")]) false
      = [{ result := RESULT_FAIL, schema_id := "schemas/x",
           message := some (apErrMessage ["b"]), absolute_path := [] }]
    ∧ ¬ "b" ∈ (([("a", JSchema.mk none [] [] none none)]).map Prod.fst) := by
  constructor
  · simp [jsonSchemaValidate, iterErrors, List.attach, List.attachWith, List.lookup,
      extraKeys, objKeys, typeOk]
  · decide

/-! ## C5 : the invalid-fixture comparison -/

/-- Two permutations of the same elements, both sorted by a string key
that is duplicate-free, are equal as lists. -/
theorem sorted_perm_nodup_keys_eq {α : Type} (key : α → String) :
    ∀ (l₁ l₂ : List α), l₁.Perm l₂ →
      l₁.Pairwise (fun a b => key a ≤ key b) →
      l₂.Pairwise (fun a b => key a ≤ key b) →
      (l₁.map key).Nodup → l₁ = l₂ := by
  intro l₁
  induction l₁ with
  | nil =>
    intro l₂ hp _ _ _
    exact (hp.nil_eq).symm ▸ rfl
  | cons a t₁ ih =>
    intro l₂ hp hs₁ hs₂ hn
    cases l₂ with
    | nil => exact absurd hp.symm.nil_eq (by simp)
    | cons b t₂ =>
      have hab : a = b := by
        have hbmem : b ∈ a :: t₁ := hp.symm.subset (by simp)
        rcases List.mem_cons.mp hbmem with hba | hbt
        · exact hba.symm
        · have hamem : a ∈ b :: t₂ := hp.subset (by simp)
          rcases List.mem_cons.mp hamem with hab2 | hat
          · exact hab2
          · have h1 : key a ≤ key b := (List.pairwise_cons.mp hs₁).1 b hbt
            have h2 : key b ≤ key a := (List.pairwise_cons.mp hs₂).1 a hat
            have hkey : key a = key b := le_antisymm h1 h2
            exfalso
            have : key a ∈ t₁.map key := List.mem_map.mpr ⟨b, hbt, hkey.symm⟩
            exact (List.nodup_cons.mp (by simpa using hn)).1 this
      subst hab
      have htail := ih t₂ (hp.cons_inv) (List.pairwise_cons.mp hs₁).2
        (List.pairwise_cons.mp hs₂).2 (List.nodup_cons.mp (by simpa using hn)).2
      rw [htail]

/-- The message-sorted list is a permutation of the input. -/
theorem sortByMessage_perm (rs : List ResultDict) : (sortByMessage rs).Perm rs :=
  List.mergeSort_perm rs _

/-- The message-sorted list is sorted by the message key. -/
theorem sortByMessage_pairwise (rs : List ResultDict) :
    (sortByMessage rs).Pairwise (fun a b => msgKey a ≤ msgKey b) := by
  have h := @List.sorted_mergeSort ResultDict
    (fun a b : ResultDict => decide (msgKey a ≤ msgKey b))
    (fun a b c hab hbc => by
      simp only [decide_eq_true_eq] at hab hbc ⊢
      exact le_trans hab hbc)
    (fun a b => by
      simp only [Bool.or_eq_true, decide_eq_true_eq]
      exact le_total (msgKey a) (msgKey b))
    rs
  exact h.imp (fun hab => by simpa using hab)

/-- Permutations with duplicate-free messages sort identically. -/
theorem sortByMessage_eq_of_perm_nodup (tmp expected : List ResultDict)
    (hperm : tmp.Perm expected) (hnodup : (tmp.map msgKey).Nodup) :
    sortByMessage tmp = sortByMessage expected := by
  refine sorted_perm_nodup_keys_eq msgKey _ _
    (((sortByMessage_perm tmp).trans hperm).trans (sortByMessage_perm expected).symm)
    (sortByMessage_pairwise tmp) (sortByMessage_pairwise expected) ?_
  exact (hnodup.perm ((sortByMessage_perm tmp).map msgKey).symm)

/-- C5 (amended).  test_schema_invalid compares the produced and the
recorded result dicts by full structural equality (paths included) of
the two lists after each is sorted by its message key, reporting a
single PASS or FAIL ValidationResult per fixture directory; when the
produced results are a permutation of the recorded ones with pairwise
distinct messages, the comparison is order-independent and passes. -/
theorem c5_compare_sorted_equality (tmp expected : List ResultDict)
    (sid td loc file : String) :
    ((testSchemaInvalidCompare tmp expected sid td loc file).result = RESULT_PASS
      ↔ sortByMessage tmp = sortByMessage expected)
    ∧ (tmp.Perm expected → (tmp.map msgKey).Nodup →
        (testSchemaInvalidCompare tmp expected sid td loc file).result = RESULT_PASS) := by
  have hpart1 : (testSchemaInvalidCompare tmp expected sid td loc file).result = RESULT_PASS
      ↔ sortByMessage tmp = sortByMessage expected := by
    unfold testSchemaInvalidCompare
    by_cases h : sortByMessage tmp = sortByMessage expected
    · rw [if_neg (not_not_intro h)]
      simpa using h
    · rw [if_pos h]
      constructor
      · intro hc
        exact absurd hc (by simp [RESULT_FAIL, RESULT_PASS])
      · intro hc
        exact absurd hc h
  refine ⟨hpart1, fun hperm hnodup => ?_⟩
  exact hpart1.mpr (sortByMessage_eq_of_perm_nodup tmp expected hperm hnodup)

/-- Witness for C5: two FAIL dicts with distinct messages recorded in
the opposite order still compare as PASS. -/
theorem c5_witness :
    (testSchemaInvalidCompare
        [⟨"FAIL", "schemas/x", some "m one", some ["a"]⟩,
         ⟨"FAIL", "schemas/x", some "m two", some ["b"]⟩]
        [⟨"FAIL", "schemas/x", some "m two", some ["b"]⟩,
         ⟨"FAIL", "schemas/x", some "m one", some ["a"]⟩]
        "schemas/x" "td" "loc" "results.yml").result = RESULT_PASS :=
  (c5_compare_sorted_equality _ _ "schemas/x" "td" "loc" "results.yml").2
    (List.Perm.swap _ _ _) (by decide)

/-- Counterexample for C5 as stated: produced and recorded results whose
messages agree but whose absolute paths differ are reported as FAIL —
the comparison is full structural equality after sorting, not
set-equality keyed on the message field. -/
theorem c5_counterexample :
    (testSchemaInvalidCompare
        (validateToDict
          (.mk (some .objectT) [("a", .mk (some .stringT) [] [] none none)] [] none none)
          "schemas/x" (.objV [("a", .numV 1)]) false)
        [⟨"FAIL", "schemas/x", some (typeErrMessage .stringT), some ["b"]⟩]
        "schemas/x" "td" "loc" "results.yml").result = RESULT_FAIL
    ∧ (validateToDict
        (.mk (some .objectT) [("a", .mk (some .stringT) [] [] none none)] [] none none)
        "schemas/x" (.objV [("a", .numV 1)]) false).map msgKey
      = [⟨"FAIL", "schemas/x", some (typeErrMessage .stringT), some ["b"]⟩].map msgKey := by
  have hval : validateToDict
      (.mk (some .objectT) [("a", .mk (some .stringT) [] [] none none)] [] none none)
      "schemas/x" (.objV [("a", .numV 1)]) false
      = [⟨"FAIL", "schemas/x", some (typeErrMessage .stringT), some ["a"]⟩] := by
    simp [validateToDict, jsonSchemaValidate, iterErrors, List.attach, List.attachWith,
      List.lookup, typeOk, extraKeys, objKeys, RESULT_FAIL]
  refine ⟨?_, ?_⟩
  · rw [hval]
    unfold testSchemaInvalidCompare
    rw [if_pos (by
      unfold sortByMessage
      simp only [List.mergeSort_singleton]
      decide)]
  · rw [hval]
    simp [msgKey]

/-! ## C6 : generation / checking round trip -/

/-- Comparing a result list against itself always passes. -/
theorem testSchemaInvalidCompare_self (rs : List ResultDict) (sid td loc file : String) :
    (testSchemaInvalidCompare rs rs sid td loc file).result = RESULT_PASS := by
  unfold testSchemaInvalidCompare
  rw [if_neg (not_not_intro rfl)]

/-- Inversion of one generation step: on success the persisted baseline
is exactly the produced result list, and none of its results passed. -/
theorem generateInvalidExpectedOne_ok (schemaData : JSchema) (sid : String) (data : JVal)
    (rs : List ResultDict)
    (h : generateInvalidExpectedOne schemaData sid data = .ok rs) :
    rs = validateToDict schemaData sid data false
    ∧ ∀ r ∈ validateToDict schemaData sid data false, r.result ≠ "PASS" := by
  unfold generateInvalidExpectedOne at h
  by_cases hfail : ensureResultsInvalidFails (validateToDict schemaData sid data false)
  · rw [if_pos hfail] at h
    cases h
  · rw [if_neg hfail] at h
    refine ⟨(Except.ok.injEq _ _ ▸ h).symm ▸ rfl, ?_⟩
    intro r hr hp
    apply hfail
    unfold ensureResultsInvalidFails
    have : "PASS" ∈ (validateToDict schemaData sid data false).map
        (fun r => r.result) := List.mem_map.mpr ⟨r, hr, hp⟩
    simpa using this

/-- C6.  When generate_invalid_tests_expected succeeds, running
test_schema_invalid on the same unchanged fixture data compares each
produced result list against the baseline just persisted for it and
reports PASS for every fixture directory; moreover success requires
that no invalid fixture validated (any PASS result aborts generation
with a hard error, so success implies every fixture produced only
non-passing results). -/
theorem c6_generate_roundtrip (schemaData : JSchema) (sid : String)
    (tests : List (String × JVal)) (baselines : List (String × List ResultDict))
    (td loc file : String)
    (h : generateInvalidExpected schemaData sid tests = .ok baselines) :
    (∀ p ∈ tests.zip baselines,
        (testSchemaInvalidCompare (validateToDict schemaData sid p.1.2 false) p.2.2
          sid td loc file).result = RESULT_PASS)
    ∧ ∀ t ∈ tests, ∀ r ∈ validateToDict schemaData sid t.2 false, r.result ≠ "PASS" := by
  induction tests generalizing baselines with
  | nil =>
    refine ⟨?_, ?_⟩
    · unfold generateInvalidExpected at h
      have hb : baselines = [] := (Except.ok.injEq _ _ ▸ h).symm ▸ rfl
      subst hb
      intro p hp
      cases hp
    · intro t ht
      cases ht
  | cons t rest ih =>
    unfold generateInvalidExpected at h
    cases h1 : generateInvalidExpectedOne schemaData sid t.2 with
    | error e => rw [h1] at h; cases h
    | ok rs =>
      rw [h1] at h
      cases h2 : generateInvalidExpected schemaData sid rest with
      | error e => rw [h2] at h; cases h
      | ok tail =>
        rw [h2] at h
        have hb : baselines = (t.1, rs) :: tail := by
          cases h
          rfl
        subst hb
        obtain ⟨hrs, hnopass⟩ := generateInvalidExpectedOne_ok schemaData sid t.2 rs h1
        obtain ⟨ihcmp, ihnp⟩ := ih tail h2
        refine ⟨?_, ?_⟩
        · intro p hp
          rcases List.mem_cons.mp (by simpa using hp) with hph | hpt
          · rw [hph]
            simp only
            rw [hrs]
            exact testSchemaInvalidCompare_self _ sid td loc file
          · exact ihcmp p hpt
        · intro t1 ht1
          rcases List.mem_cons.mp ht1 with hth | htt
          · rw [hth]
            exact hnopass
          · exact ihnp t1 htt

/-- Witness for C6: a schema requiring property a, one invalid fixture
that is the empty object; generation succeeds with the produced FAIL
baseline and the subsequent check passes. -/
theorem c6_witness :
    (∀ p ∈ ([(("t1" : String), JVal.objV [])]).zip
        [(("t1" : String),
          [(⟨"FAIL", "schemas/x", some (requiredErrMessage "a"), some []⟩ : ResultDict)])],
        (testSchemaInvalidCompare
          (validateToDict
            (.mk (some .objectT) [("a", .mk (some .stringT) [] [] none none)] ["a"] none none)
            "schemas/x" p.1.2 false) p.2.2
          "schemas/x" "t1" "loc" "results.yml").result = RESULT_PASS)
    ∧ ∀ t ∈ ([(("t1" : String), JVal.objV [])]),
        ∀ r ∈ validateToDict
          (.mk (some .objectT) [("a", .mk (some .stringT) [] [] none none)] ["a"] none none)
          "schemas/x" t.2 false, r.result ≠ "PASS" := by
  refine c6_generate_roundtrip
    (.mk (some .objectT) [("a", .mk (some .stringT) [] [] none none)] ["a"] none none)
    "schemas/x" [("t1", JVal.objV [])]
    [("t1", [⟨"FAIL", "schemas/x", some (requiredErrMessage "a"), some []⟩])]
    "t1" "loc" "results.yml" ?_
  unfold generateInvalidExpected generateInvalidExpectedOne
  have hval : validateToDict
      (.mk (some .objectT) [("a", .mk (some .stringT) [] [] none none)] ["a"] none none)
      "schemas/x" (JVal.objV []) false
      = [⟨"FAIL", "schemas/x", some (requiredErrMessage "a"), some []⟩] := by
    simp [validateToDict, jsonSchemaValidate, iterErrors, List.attach, List.attachWith,
      List.lookup, typeOk, extraKeys, objKeys, RESULT_FAIL]
  rw [hval]
  rfl

end SchemaEnforcer
